import Mathlib

/-!
Verification of the Z80 emulation harness of rybot2 (`src/main.rs`).

The harness loads a caller-supplied program into a 65536-byte memory image
padded with the Z80 halt opcode `0x76`, routes port-mapped I/O to a TMS9918A
VDP model, drives the CPU collaborator to a `Halt` break cause, and exports
register text plus (when the VDP was touched) an upscaled frame-buffer image.

The CPU engine (`z80emu`), the VDP engine (`tms9918a_emu`) and the image
library are external collaborators: they are represented abstractly (the CPU
as a stream of per-instruction step results, the disassembler as a stream of
decoded records, the VDP as a free record of the calls it received).  All
harness-owned logic — the padding loop, `vec_to_array`, the `Io` impl for
`Bus`, the disassembly callback's halt-streak stop rule, the execution loop's
break-cause handling, and the frame-buffer pixel conversion — is translated
directly from `src/main.rs`.
-/

namespace Rybot

/-- Memory capacity of the emulated machine: the `rom` field is `[u8; 65536]`. -/
def capacity : Nat := 65536

/-- The Z80 halt opcode used for padding (`0x76`). -/
def haltOpcode : Nat := 0x76

/-- The VDP control port constant from `write_io` (`0b00010010` = `0x12`). -/
def vdpControlPort : Nat := 0b00010010

/-- The VDP data port constant from `write_io` / `read_io` (`0b00010000` = `0x10`). -/
def vdpDataPort : Nat := 0b00010000

/-- Wrapping subtraction on 64-bit `usize`, the release-mode semantics of
`65536 - memory_vec.len()` in `z80_execute`. -/
def usizeSub (a b : Nat) : Nat := (a + 2 ^ 64 - b) % 2 ^ 64

/-- Free model of the external TMS9918A collaborator: it records the calls the
harness forwards to it.  `readValue` is the (abstract) byte the data port
currently yields. -/
structure VdpState where
  ctrlWrites : List Nat
  dataWrites : List Nat
  dataReads : Nat
  readValue : Nat
deriving DecidableEq

/-- `TMS9918A::new()` as seen through the free model: no calls recorded yet. -/
def VdpState.new : VdpState := { ctrlWrites := [], dataWrites := [], dataReads := 0, readValue := 0 }

/-- `vdp.write_control_port(data)`: record the control-port write. -/
def VdpState.write_control_port (s : VdpState) (data : Nat) : VdpState :=
  { s with ctrlWrites := s.ctrlWrites ++ [data] }

/-- `vdp.write_data_port(data)`: record the data-port write. -/
def VdpState.write_data_port (s : VdpState) (data : Nat) : VdpState :=
  { s with dataWrites := s.dataWrites ++ [data] }

/-- `vdp.read_data_port()`: yield the current data byte and record the read. -/
def VdpState.read_data_port (s : VdpState) : Nat × VdpState :=
  (s.readValue, { s with dataReads := s.dataReads + 1 })

/-- The `Bus` struct of `src/main.rs`: VDP collaborator, the `vdp_used` flag
and the 65536-byte memory image (bytes as `Nat`). -/
structure Bus where
  vdp : VdpState
  vdp_used : Bool
  rom : List Nat
deriving DecidableEq

/-- `<Bus as Io>::write_io(port, data)`, translated line by line: mask the port
to its low 8 bits, forward to the VDP control port if it equals `0b00010010`,
then to the VDP data port if it equals `0b00010000` (two sequential `if`s, as
in the source), setting `vdp_used` in either branch; return `(None, None)`. -/
def Bus.write_io_op (bus : Bus) (port data : Nat) : Bus × (Option Unit × Option Nat) :=
  let masked_port := port &&& 0x00FF
  let bus1 :=
    if masked_port = vdpControlPort then
      { bus with vdp_used := true, vdp := bus.vdp.write_control_port data }
    else bus
  let bus2 :=
    if masked_port = vdpDataPort then
      { bus1 with vdp_used := true, vdp := bus1.vdp.write_data_port data }
    else bus1
  (bus2, (none, none))

/-- `<Bus as Io>::read_io(port)`: mask the port to its low 8 bits; if it equals
the VDP data port, set `vdp_used` and return `vdp.read_data_port()` with no
wait states; otherwise return `0` with no wait states. -/
def Bus.read_io_op (bus : Bus) (port : Nat) : (Nat × Option Nat) × Bus :=
  let masked_port := port &&& 0x00FF
  if masked_port = vdpDataPort then
    let r := bus.vdp.read_data_port
    ((r.1, none), { bus with vdp_used := true, vdp := r.2 })
  else ((0, none), bus)

/-- `<Bus as Memory>::read_debug(addr)`: direct indexed read of `rom`. -/
def Bus.read_debug (bus : Bus) (addr : Nat) : Nat := bus.rom.getD addr 0

/-- `<Bus as Memory>::write_mem(addr, value)`: direct indexed write of `rom`. -/
def Bus.write_mem (bus : Bus) (addr value : Nat) : Bus :=
  { bus with rom := bus.rom.set addr value }

/-- The padding loop of `z80_execute`:
`for _ in 0..65536-memory_vec.len() { memory_vec.push(0x76); }`
(`65536 - len` taken with `usize` wrapping semantics). -/
def padHalts (memory_vec : List Nat) : List Nat :=
  (List.range (usizeSub capacity memory_vec.length)).foldl
    (fun v _ => v ++ [haltOpcode]) memory_vec

/-- `vec_to_array`: the `TryInto` conversion `Vec<u8> -> [u8; 65536]`, which
succeeds exactly when the vector has length 65536 (otherwise the source
panics, modelled as `none`). -/
def vec_to_array (v : List Nat) : Option (List Nat) :=
  if v.length = capacity then some v else none

/-- One I/O access performed by the running program against the `Bus`. -/
inductive IoEvent
  | writePort (port data : Nat)
  | readPort (port : Nat)
deriving DecidableEq

/-- Fold a sequence of program I/O accesses through the `Bus`, using the
`write_io` / `read_io` implementations above. -/
def runTrace (bus : Bus) : List IoEvent → Bus
  | [] => bus
  | IoEvent.writePort p d :: es => runTrace (bus.write_io_op p d).1 es
  | IoEvent.readPort p :: es => runTrace (bus.read_io_op p).2 es

/-- `true` iff the trace contains a write to a VDP-mapped port (masked port
equal to the control- or data-port constant). -/
def vdpWriteTouch : List IoEvent → Bool
  | [] => false
  | IoEvent.writePort p _ :: es =>
      if p &&& 0x00FF = vdpControlPort ∨ p &&& 0x00FF = vdpDataPort then true
      else vdpWriteTouch es
  | IoEvent.readPort _ :: es => vdpWriteTouch es

/-- `true` iff the trace contains a read of the VDP data port. -/
def vdpReadTouch : List IoEvent → Bool
  | [] => false
  | IoEvent.writePort _ _ :: es => vdpReadTouch es
  | IoEvent.readPort p :: es =>
      if p &&& 0x00FF = vdpDataPort then true else vdpReadTouch es

/-- Result of one `cpu.execute_next(..)` call, as seen by the driver loop:
`Ok(())`, `Err(BreakCause::Halt)`, or `Err` with any other break cause. -/
inductive StepResult
  | ok
  | breakHalt
  | breakOther
deriving DecidableEq

/-- The execution loop of `z80_execute`:
`loop { match cpu.execute_next(..) { Err(BreakCause::Halt) => break, _ => {} } }`.
Returns `true` iff the loop exits within the given finite stream of step
results (it exits only on a `Halt` break cause). -/
def execLoop : List StepResult → Bool
  | [] => false
  | StepResult.breakHalt :: _ => true
  | _ :: rest => execLoop rest

/-- Observable output actions of `z80_execute`, in program order. -/
inductive Event
  | sendDisasm
  | vdpUpdate
  | sendRegs
  | sendVdpRegs
  | sendImage
deriving DecidableEq

/-- The output behaviour of `z80_execute` after the memory image is built:
the disassembly is sent, then the execution loop runs; if it exits (Halt),
`vdp.update()` is called, the Z80 register dump is sent, and — only when
`vdp_used` is set — the VDP register dump and the frame image follow.
If the loop never exits within the step stream, no further output occurs
(`none`). -/
def z80ExecuteEvents (steps : List StepResult) (used : Bool) : Option (List Event) :=
  if execLoop steps then
    some (Event.sendDisasm :: Event.vdpUpdate :: Event.sendRegs ::
      (if used then [Event.sendVdpRegs, Event.sendImage] else []))
  else none

/-- The disassembly callback of `z80_execute`, folded over the stream of
records produced by the external decoder: every record is appended to the
listing; after appending, a record whose code is exactly `[0x76]` either stops
the pass (if the previous record was also a lone halt, `flag` set) or sets the
halt-streak flag; any other record clears the flag. -/
def disasmListing : Bool → List (List Nat) → List (List Nat)
  | _, [] => []
  | flag, r :: rs =>
    if r = [haltOpcode] then
      if flag then [r] else r :: disasmListing true rs
    else r :: disasmListing false rs

/-- Scanning semantics of the halt-streak flag: `true` iff the callback,
entered with the given flag, would stop somewhere inside the record stream. -/
def stopsIn : Bool → List (List Nat) → Bool
  | _, [] => false
  | flag, r :: rs =>
    if r = [haltOpcode] then (flag || stopsIn true rs) else stopsIn false rs

/-- `true` iff the record stream contains two adjacent lone-halt records. -/
def hasHaltPair : List (List Nat) → Bool
  | [] => false
  | [_] => false
  | a :: b :: t =>
    (decide (a = [haltOpcode]) && decide (b = [haltOpcode])) || hasHaltPair (b :: t)

/-- The frame-buffer pixel conversion in `z80_execute`'s image export: pixel
`(x, y)` decodes the packed 24-bit sample `frame[y * width + x]` into its
red, green and blue channels (each cast to `u8`). -/
def vdpPixel (frame : List Nat) (width x y : Nat) : Nat × Nat × Nat :=
  ((((frame.getD (y * width + x) 0) &&& 0xFF0000) >>> 16) % 256,
   (((frame.getD (y * width + x) 0) &&& 0x00FF00) >>> 8) % 256,
   ((frame.getD (y * width + x) 0) &&& 0x0000FF) % 256)

/-- Modelled from the spec: the external image library call
`imageops::resize(.., width * 4, height * 4, FilterType::Nearest)` is a fixed
4x nearest-neighbor upscale — output pixel `(X, Y)` samples source pixel
`(X / 4, Y / 4)`. -/
def upscale4 (pix : Nat → Nat → Nat × Nat × Nat) (X Y : Nat) : Nat × Nat × Nat :=
  pix (X / 4) (Y / 4)

/-- Dimensions passed to the resize call: `(width * 4, height * 4)`. -/
def finalImageSize (width height : Nat) : Nat × Nat := (width * 4, height * 4)

/-- A pixel of the exported image: the 4x nearest-neighbor upscale applied to
the decoded frame-buffer image. -/
def finalImagePixel (frame : List Nat) (width X Y : Nat) : Nat × Nat × Nat :=
  upscale4 (fun x y => vdpPixel frame width x y) X Y

/-! ## Helper lemmas -/

theorem foldl_push_eq_append (n : Nat) (v : List Nat) (b : Nat) :
    (List.range n).foldl (fun a _ => a ++ [b]) v = v ++ List.replicate n b := by
  induction n generalizing v with
  | zero => simp
  | succ k ih =>
      rw [List.range_succ, List.foldl_append, ih v]
      simp [List.replicate_succ']

theorem usizeSub_of_le {a b : Nat} (hba : b ≤ a) (ha : a - b < 2 ^ 64) :
    usizeSub a b = a - b := by
  unfold usizeSub
  have h : a + 2 ^ 64 - b = (a - b) + 2 ^ 64 := by omega
  rw [h, Nat.add_mod_right, Nat.mod_eq_of_lt ha]

theorem usizeSub_of_gt {a b : Nat} (hab : a < b) (hb : b < 2 ^ 64) :
    usizeSub a b = a + 2 ^ 64 - b := by
  unfold usizeSub
  exact Nat.mod_eq_of_lt (by omega)

theorem padHalts_of_le {p : List Nat} (h : p.length ≤ capacity) :
    padHalts p = p ++ List.replicate (capacity - p.length) haltOpcode := by
  unfold padHalts
  rw [usizeSub_of_le h (lt_of_le_of_lt (Nat.sub_le capacity p.length) (by norm_num [capacity])),
    foldl_push_eq_append]

/-! ## Claim theorems -/

/-- C1: for every program `P` with `len(P) ≤ capacity` (65536), the loaded
memory buffer is exactly `P` at offset 0 followed by `capacity − len(P)` bytes
equal to the halt opcode `0x76`, and the fixed-size conversion `vec_to_array`
succeeds on it. -/
theorem loaded_buffer_is_program_then_halts (p : List Nat) (h : p.length ≤ capacity) :
    vec_to_array (padHalts p) =
      some (p ++ List.replicate (capacity - p.length) haltOpcode) := by
  rw [padHalts_of_le h]
  unfold vec_to_array
  rw [if_pos (by simp only [List.length_append, List.length_replicate]; omega)]

theorem loaded_buffer_is_program_then_halts_witness :
    ([0x3E, 0x05, 0x76] : List Nat).length ≤ capacity ∧
    vec_to_array (padHalts [0x3E, 0x05, 0x76]) =
      some (([0x3E, 0x05, 0x76] : List Nat) ++
        List.replicate (capacity - ([0x3E, 0x05, 0x76] : List Nat).length) haltOpcode) :=
  ⟨by decide, loaded_buffer_is_program_then_halts [0x3E, 0x05, 0x76] (by decide)⟩

/-- C9: for every input byte sequence strictly longer than the capacity
(65536), the load step fails: the wrapping padding count `65536 − len` leaves
the padded vector at length `len + (2^64 + 65536 − len) = 2^64 + 65536`, so
the fixed-size array conversion returns `none` — the program is never
truncated and never partially run. -/
theorem oversized_program_load_fails (p : List Nat)
    (hbig : capacity < p.length) (hsize : p.length < 2 ^ 64) :
    vec_to_array (padHalts p) = none := by
  have hpad : padHalts p =
      p ++ List.replicate (capacity + 2 ^ 64 - p.length) haltOpcode := by
    unfold padHalts
    rw [usizeSub_of_gt hbig hsize, foldl_push_eq_append]
  rw [hpad]
  unfold vec_to_array
  rw [if_neg (by simp only [List.length_append, List.length_replicate]; omega)]

theorem oversized_program_load_fails_witness :
    capacity < (List.replicate 65537 (0 : Nat)).length ∧
    (List.replicate 65537 (0 : Nat)).length < 2 ^ 64 ∧
    vec_to_array (padHalts (List.replicate 65537 (0 : Nat))) = none :=
  ⟨by rw [List.length_replicate]; norm_num [capacity],
   by rw [List.length_replicate]; norm_num,
   oversized_program_load_fails (List.replicate 65537 0)
     (by rw [List.length_replicate]; norm_num [capacity])
     (by rw [List.length_replicate]; norm_num)⟩

/-- C4: `write_io` masks the port to its low 8 bits (`port &&& 0x00FF`, i.e.
`port % 256`); a masked port equal to the VDP control-port constant forwards
the data byte to `vdp.write_control_port` and sets `vdp_used`; one equal to
the VDP data-port constant forwards it to `vdp.write_data_port` and sets
`vdp_used`; any other port leaves the bus unchanged; and in every case the
returned pair carries no wait-state and no trap signal (`(None, None)`). -/
theorem write_io_routes_to_vdp (bus : Bus) (port data : Nat) :
    port &&& 0x00FF = port % 256 ∧
    (bus.write_io_op port data).2 = (none, none) ∧
    (bus.write_io_op port data).1 =
      (if port &&& 0x00FF = vdpControlPort then
        { bus with vdp_used := true, vdp := bus.vdp.write_control_port data }
      else if port &&& 0x00FF = vdpDataPort then
        { bus with vdp_used := true, vdp := bus.vdp.write_data_port data }
      else bus) := by
  refine ⟨?_, rfl, ?_⟩
  · have h : (0x00FF : Nat) = 2 ^ 8 - 1 := by norm_num
    rw [h, Nat.and_pow_two_sub_one_eq_mod]
  · have hcd : ¬ vdpControlPort = vdpDataPort := by decide
    have hdc : ¬ vdpDataPort = vdpControlPort := by decide
    by_cases h1 : port &&& 0x00FF = vdpControlPort <;>
      by_cases h2 : port &&& 0x00FF = vdpDataPort
    · exact absurd (h1.symm.trans h2) (by decide)
    · simp [Bus.write_io_op, h1, h2, hcd, hdc]
    · simp [Bus.write_io_op, h1, h2, hcd, hdc]
    · simp [Bus.write_io_op, h1, h2, hcd, hdc]

/-- C5: `read_io` masks the port to its low 8 bits; when the masked port
equals the VDP data-port constant it sets `vdp_used` and returns the byte
`vdp.read_data_port()` yields (threading the VDP state), and otherwise it
returns `0` leaving the bus unchanged; in both cases the wait-state component
is `none` — the operation is total and never signals an error. -/
theorem read_io_returns_vdp_data (bus : Bus) (port : Nat) :
    port &&& 0x00FF = port % 256 ∧
    ((bus.read_io_op port).1).2 = none ∧
    ((bus.read_io_op port).1).1 =
      (if port &&& 0x00FF = vdpDataPort then (bus.vdp.read_data_port).1 else 0) ∧
    (bus.read_io_op port).2 =
      (if port &&& 0x00FF = vdpDataPort then
        { bus with vdp_used := true, vdp := (bus.vdp.read_data_port).2 }
      else bus) := by
  refine ⟨?_, ?_, ?_, ?_⟩
  · have h : (0x00FF : Nat) = 2 ^ 8 - 1 := by norm_num
    rw [h, Nat.and_pow_two_sub_one_eq_mod]
  all_goals
    unfold Bus.read_io_op
    by_cases h1 : port &&& 0x00FF = vdpDataPort
  all_goals simp [h1]

/-- C10: neither `write_io` nor `read_io` modifies any byte of the memory
buffer `rom`, for every port, data byte, and bus state; only the VDP
collaborator state and the `vdp_used` flag may change. -/
theorem io_ops_preserve_rom (bus : Bus) (port data : Nat) :
    ((bus.write_io_op port data).1).rom = bus.rom ∧
    ((bus.read_io_op port).2).rom = bus.rom := by
  constructor
  · have hcd : ¬ vdpControlPort = vdpDataPort := by decide
    have hdc : ¬ vdpDataPort = vdpControlPort := by decide
    by_cases h1 : port &&& 0x00FF = vdpControlPort <;>
      by_cases h2 : port &&& 0x00FF = vdpDataPort
    · exact absurd (h1.symm.trans h2) (by decide)
    · simp [Bus.write_io_op, h1, h2, hcd, hdc]
    · simp [Bus.write_io_op, h1, h2, hcd, hdc]
    · simp [Bus.write_io_op, h1, h2, hcd, hdc]
  · by_cases h1 : port &&& 0x00FF = vdpDataPort <;> simp [Bus.read_io_op, h1]

theorem execLoop_eq_true_iff (steps : List StepResult) :
    execLoop steps = true ↔ StepResult.breakHalt ∈ steps := by
  induction steps with
  | nil => simp [execLoop]
  | cons s rest ih => cases s <;> simp [execLoop, ih]

/-- C2 counterexample: the step stream `[breakOther, breakHalt]` contains an
instruction step returning a break cause other than Halt, yet the invocation
does not terminate as a fatal execution error: it runs on to the Halt and
produces the register dump. -/
theorem nonhalt_break_not_fatal_counterexample :
    z80ExecuteEvents [StepResult.breakOther, StepResult.breakHalt] false ≠ none ∧
    Event.sendRegs ∈
      (z80ExecuteEvents [StepResult.breakOther, StepResult.breakHalt] false).getD [] := by
  decide

/-- C2 (amended): the execution loop silently ignores `Ok` results and every
break cause other than Halt; the run ends (successfully, with the register
dump always produced) exactly when some step returns the Halt break cause,
and otherwise the loop never exits and no output after the disassembly is
produced. -/
theorem exec_loop_ignores_nonhalt_breaks (steps : List StepResult) (used : Bool) :
    z80ExecuteEvents steps used =
      (if StepResult.breakHalt ∈ steps then
        some (Event.sendDisasm :: Event.vdpUpdate :: Event.sendRegs ::
          (if used then [Event.sendVdpRegs, Event.sendImage] else []))
      else none) := by
  unfold z80ExecuteEvents
  by_cases h : StepResult.breakHalt ∈ steps
  · rw [if_pos ((execLoop_eq_true_iff steps).2 h), if_pos h]
  · rw [if_neg (fun hl => h ((execLoop_eq_true_iff steps).1 hl)), if_neg h]

/-- C7: whenever the execution reaches a Halt break cause (so the driver
produces output at all), `vdp.update()` occurs exactly once, placed after the
execution loop exits — only the pre-loop disassembly message precedes it —
and before the register dump and any frame-image output. -/
theorem vdp_update_once_before_outputs (steps : List StepResult) (used : Bool)
    (evs : List Event) (h : z80ExecuteEvents steps used = some evs) :
    evs.count Event.vdpUpdate = 1 ∧
    evs.take 2 = [Event.sendDisasm, Event.vdpUpdate] ∧
    Event.sendRegs ∈ evs.drop 2 ∧
    Event.vdpUpdate ∉ evs.drop 2 ∧
    Event.sendRegs ∉ evs.take 2 ∧
    Event.sendImage ∉ evs.take 2 := by
  unfold z80ExecuteEvents at h
  by_cases hl : execLoop steps = true
  · rw [if_pos hl] at h
    injection h with h
    subst h
    cases used
    · decide
    · decide
  · rw [if_neg hl] at h
    exact absurd h (by simp)

theorem vdp_update_once_before_outputs_witness :
    z80ExecuteEvents [StepResult.breakHalt] true =
      some [Event.sendDisasm, Event.vdpUpdate, Event.sendRegs, Event.sendVdpRegs,
        Event.sendImage] ∧
    ([Event.sendDisasm, Event.vdpUpdate, Event.sendRegs, Event.sendVdpRegs,
        Event.sendImage].count Event.vdpUpdate = 1 ∧
      [Event.sendDisasm, Event.vdpUpdate, Event.sendRegs, Event.sendVdpRegs,
        Event.sendImage].take 2 = [Event.sendDisasm, Event.vdpUpdate] ∧
      Event.sendRegs ∈ [Event.sendDisasm, Event.vdpUpdate, Event.sendRegs,
        Event.sendVdpRegs, Event.sendImage].drop 2 ∧
      Event.vdpUpdate ∉ [Event.sendDisasm, Event.vdpUpdate, Event.sendRegs,
        Event.sendVdpRegs, Event.sendImage].drop 2 ∧
      Event.sendRegs ∉ [Event.sendDisasm, Event.vdpUpdate, Event.sendRegs,
        Event.sendVdpRegs, Event.sendImage].take 2 ∧
      Event.sendImage ∉ [Event.sendDisasm, Event.vdpUpdate, Event.sendRegs,
        Event.sendVdpRegs, Event.sendImage].take 2) :=
  ⟨by decide, vdp_update_once_before_outputs [StepResult.breakHalt] true _ (by decide)⟩

/-- C3 counterexample: the trace `[readPort 0x10]` performs no write to any
port at all, yet after it runs, `vdp_used` is `true` (the data-port *read*
sets it) and the image payload is produced. -/
theorem vdp_read_sets_used_counterexample :
    vdpWriteTouch [IoEvent.readPort 0x10] = false ∧
    (runTrace { vdp := VdpState.new, vdp_used := false, rom := [] }
      [IoEvent.readPort 0x10]).vdp_used = true ∧
    Event.sendImage ∈
      (z80ExecuteEvents [StepResult.breakHalt]
        (runTrace { vdp := VdpState.new, vdp_used := false, rom := [] }
          [IoEvent.readPort 0x10]).vdp_used).getD [] := by
  decide

theorem runTrace_vdp_used_false (trace : List IoEvent) :
    ∀ bus : Bus, bus.vdp_used = false → vdpWriteTouch trace = false →
      vdpReadTouch trace = false → (runTrace bus trace).vdp_used = false := by
  induction trace with
  | nil =>
      intro bus h0 _ _
      exact h0
  | cons e es ih =>
      intro bus h0 hw hr
      cases e with
      | writePort p d =>
          simp only [vdpWriteTouch] at hw
          simp only [vdpReadTouch] at hr
          split at hw
          · exact absurd hw (by simp)
          · rename_i hcond
            push_neg at hcond
            have hbus : (bus.write_io_op p d).1 = bus := by
              simp [Bus.write_io_op, hcond.1, hcond.2]
            rw [runTrace, hbus]
            exact ih bus h0 hw hr
      | readPort p =>
          simp only [vdpWriteTouch] at hw
          simp only [vdpReadTouch] at hr
          split at hr
          · exact absurd hr (by simp)
          · rename_i hcond
            have hbus : (bus.read_io_op p).2 = bus := by
              simp [Bus.read_io_op, hcond]
            rw [runTrace, hbus]
            exact ih bus h0 hw hr

/-- C3 (amended): for every execution whose I/O trace neither writes to a
VDP-mapped port nor reads the VDP data port, the `vdp_used` flag is false at
the end of execution and no image payload is produced.  (As stated, the claim
is false: a read of the VDP data port also sets `vdp_used` — see the
counterexample.) -/
theorem no_vdp_access_no_image (bus : Bus) (trace : List IoEvent)
    (steps : List StepResult)
    (h0 : bus.vdp_used = false)
    (hw : vdpWriteTouch trace = false)
    (hr : vdpReadTouch trace = false) :
    (runTrace bus trace).vdp_used = false ∧
    Event.sendImage ∉
      (z80ExecuteEvents steps (runTrace bus trace).vdp_used).getD [] := by
  have hmain : (runTrace bus trace).vdp_used = false :=
    runTrace_vdp_used_false trace bus h0 hw hr
  refine ⟨hmain, ?_⟩
  rw [hmain]
  unfold z80ExecuteEvents
  by_cases hl : execLoop steps = true
  · rw [if_pos hl]
    decide
  · rw [if_neg hl]
    decide

theorem no_vdp_access_no_image_witness :
    ({ vdp := VdpState.new, vdp_used := false, rom := [] } : Bus).vdp_used = false ∧
    vdpWriteTouch [IoEvent.writePort 0x30 7, IoEvent.readPort 0x12] = false ∧
    vdpReadTouch [IoEvent.writePort 0x30 7, IoEvent.readPort 0x12] = false ∧
    ((runTrace { vdp := VdpState.new, vdp_used := false, rom := [] }
        [IoEvent.writePort 0x30 7, IoEvent.readPort 0x12]).vdp_used = false ∧
      Event.sendImage ∉
        (z80ExecuteEvents [StepResult.breakHalt]
          (runTrace { vdp := VdpState.new, vdp_used := false, rom := [] }
            [IoEvent.writePort 0x30 7, IoEvent.readPort 0x12]).vdp_used).getD []) :=
  ⟨by decide, by decide, by decide,
   no_vdp_access_no_image _ _ _ (by decide) (by decide) (by decide)⟩

theorem disasmListing_length_le (rs : List (List Nat)) :
    ∀ flag : Bool, (disasmListing flag rs).length ≤ rs.length := by
  induction rs with
  | nil =>
      intro flag
      simp [disasmListing]
  | cons r rest ih =>
      intro flag
      by_cases hr : r = [haltOpcode]
      · cases flag
        · have := ih true
          simp only [disasmListing, hr, if_pos, if_true, List.length_cons]
          simp [hr]
          omega
        · simp [disasmListing, hr]
      · have := ih false
        simp only [List.length_cons]
        simp [disasmListing, hr]
        omega

theorem length_le_sum_of_nonempty (rs : List (List Nat)) (h : ∀ r ∈ rs, r ≠ []) :
    rs.length ≤ (rs.map List.length).sum := by
  induction rs with
  | nil => simp
  | cons r rest ih =>
      simp only [List.map_cons, List.sum_cons, List.length_cons]
      have h1 : 1 ≤ r.length := List.length_pos.2 (h r (by simp))
      have h2 := ih (fun x hx => h x (by simp [hx]))
      omega

theorem disasmListing_take_prefix (rs : List (List Nat)) :
    ∀ (flag : Bool) (n : Nat), ∃ ts,
      disasmListing flag rs = disasmListing flag (rs.take n) ++ ts := by
  induction rs with
  | nil =>
      intro flag n
      exact ⟨[], by simp [disasmListing]⟩
  | cons r rest ih =>
      intro flag n
      cases n with
      | zero => exact ⟨disasmListing flag (r :: rest), by simp [disasmListing]⟩
      | succ k =>
          rw [List.take_succ_cons]
          by_cases hr : r = [haltOpcode]
          · cases flag
            · obtain ⟨ts, hts⟩ := ih true k
              exact ⟨ts, by simp [disasmListing, hr, hts]⟩
            · exact ⟨[], by simp [disasmListing, hr]⟩
          · obtain ⟨ts, hts⟩ := ih false k
            exact ⟨ts, by simp [disasmListing, hr, hts]⟩

theorem stopsIn_false_eq_hasHaltPair (rs : List (List Nat)) :
    stopsIn false rs = hasHaltPair rs := by
  induction rs with
  | nil => rfl
  | cons a t ih =>
      cases t with
      | nil => by_cases ha : a = [haltOpcode] <;> simp [stopsIn, hasHaltPair, ha]
      | cons b t' =>
          by_cases ha : a = [haltOpcode]
          · by_cases hb : b = [haltOpcode]
            · simp [stopsIn, hasHaltPair, ha, hb]
            · simp only [stopsIn, hasHaltPair, ha, hb, ← ih]
              simp [stopsIn, ha, hb]
          · simp only [stopsIn, hasHaltPair, ha, ← ih]
            simp [stopsIn, ha]

theorem disasmListing_stops_at_pair (bs : List (List Nat)) :
    ∀ (as : List (List Nat)) (flag : Bool),
      stopsIn flag (as ++ [[haltOpcode]]) = false →
      disasmListing flag (as ++ [haltOpcode] :: [haltOpcode] :: bs) =
        as ++ [[haltOpcode], [haltOpcode]] := by
  intro as
  induction as with
  | nil =>
      intro flag h
      have hflag : flag = false := by
        cases flag
        · rfl
        · exfalso
          simp [stopsIn] at h
      subst hflag
      simp [disasmListing]
  | cons a as' ih =>
      intro flag h
      by_cases ha : a = [haltOpcode]
      · have h2 : flag = false := by
          cases flag
          · rfl
          · exfalso
            simp [stopsIn, ha] at h
        subst h2
        have h1 : stopsIn true (as' ++ [[haltOpcode]]) = false := by
          simpa [stopsIn, ha] using h
        simp [disasmListing, ha, ih true h1]
      · have h1 : stopsIn false (as' ++ [[haltOpcode]]) = false := by
          simpa [stopsIn, ha] using h
        simp [disasmListing, ha, ih false h1]

/-- C6: for every record stream the external decoder can produce from the
loaded buffer (each record's code nonempty, total code size at most the
capacity), the disassembly listing holds at most `capacity + 1` records; the
listing kept when the stream is cut short at any point (the decoder's
malformed-opcode error) is a prefix of the full one (the partial listing is
retained); and the pass stops exactly at the first pair of consecutive
single-byte halt records, keeping both of them. -/
theorem disasm_bounded_and_stops (rs : List (List Nat))
    (hne : ∀ r ∈ rs, r ≠ [])
    (hsum : (rs.map List.length).sum ≤ capacity) :
    (disasmListing false rs).length ≤ capacity + 1 ∧
    (∀ n, ∃ ts, disasmListing false rs = disasmListing false (rs.take n) ++ ts) ∧
    (∀ as bs, rs = as ++ [haltOpcode] :: [haltOpcode] :: bs →
      hasHaltPair (as ++ [[haltOpcode]]) = false →
      disasmListing false rs = as ++ [[haltOpcode], [haltOpcode]]) := by
  refine ⟨?_, ?_, ?_⟩
  · have h1 := disasmListing_length_le rs false
    have h2 := length_le_sum_of_nonempty rs hne
    omega
  · intro n
    exact disasmListing_take_prefix rs false n
  · intro as bs hrs hpair
    subst hrs
    exact disasmListing_stops_at_pair bs as false
      (by rw [stopsIn_false_eq_hasHaltPair]; exact hpair)

theorem disasm_bounded_and_stops_witness :
    (disasmListing false [[0x3E, 0x05], [0x76], [0x76]]).length ≤ capacity + 1 ∧
    disasmListing false [[0x3E, 0x05], [0x76], [0x76]] =
      [[0x3E, 0x05]] ++ [[0x76], [0x76]] :=
  ⟨(disasm_bounded_and_stops [[0x3E, 0x05], [0x76], [0x76]]
      (by decide) (by decide)).1,
   (disasm_bounded_and_stops [[0x3E, 0x05], [0x76], [0x76]]
      (by decide) (by decide)).2.2 [[0x3E, 0x05]] [] (by decide) (by decide)⟩

/-- C8: the image payload decodes each packed 24-bit frame-buffer sample
row-major — the pixel at `(x, y)` is sample `y * width + x`, equivalently
sample `i` lands at `(i mod width, i div width)` split into its three 8-bit
RGB channels — and the final image is the fixed 4x nearest-neighbor upscale:
it is sized `width * 4 × height * 4` and its pixel `(X, Y)` is the decoded
pixel `(X / 4, Y / 4)`. -/
theorem image_export_rowmajor_upscale (frame : List Nat) (width height i X Y : Nat)
    (hw : 0 < width) (hi : i < width * height)
    (hX : X < width * 4) (hY : Y < height * 4) :
    finalImageSize width height = (width * 4, height * 4) ∧
    finalImagePixel frame width X Y = vdpPixel frame width (X / 4) (Y / 4) ∧
    ((Y / 4) * width + X / 4) % width = X / 4 ∧
    ((Y / 4) * width + X / 4) / width = Y / 4 ∧
    vdpPixel frame width (i % width) (i / width) =
      ((((frame.getD i 0) &&& 0xFF0000) >>> 16) % 256,
       (((frame.getD i 0) &&& 0x00FF00) >>> 8) % 256,
       ((frame.getD i 0) &&& 0x0000FF) % 256) := by
  have hX4 : X / 4 < width := (Nat.div_lt_iff_lt_mul (by norm_num)).2 hX
  refine ⟨rfl, rfl, ?_, ?_, ?_⟩
  · rw [Nat.mul_comm, Nat.mul_add_mod, Nat.mod_eq_of_lt hX4]
  · rw [Nat.mul_comm, Nat.mul_add_div hw, Nat.div_eq_of_lt hX4]
    exact Nat.add_zero _
  · unfold vdpPixel
    rw [show i / width * width + i % width = i by
      rw [Nat.mul_comm]
      exact Nat.div_add_mod i width]

theorem image_export_rowmajor_upscale_witness :
    finalImageSize 3 2 = (12, 8) ∧
    finalImagePixel [1, 2, 3, 4, 5, 6] 3 11 7 =
      vdpPixel [1, 2, 3, 4, 5, 6] 3 (11 / 4) (7 / 4) ∧
    (7 / 4 * 3 + 11 / 4) % 3 = 11 / 4 ∧
    (7 / 4 * 3 + 11 / 4) / 3 = 7 / 4 ∧
    vdpPixel [1, 2, 3, 4, 5, 6] 3 (4 % 3) (4 / 3) =
      ((((([1, 2, 3, 4, 5, 6] : List Nat).getD 4 0) &&& 0xFF0000) >>> 16) % 256,
       (((([1, 2, 3, 4, 5, 6] : List Nat).getD 4 0) &&& 0x00FF00) >>> 8) % 256,
       ((([1, 2, 3, 4, 5, 6] : List Nat).getD 4 0) &&& 0x0000FF) % 256) :=
  image_export_rowmajor_upscale [1, 2, 3, 4, 5, 6] 3 2 4 11 7
    (by decide) (by decide) (by decide) (by decide)

end Rybot
